import Mathlib

/-!
Verification of the markdown validation engine of this repository
(`validateMarkdown`, `findLineNumber`, `exportErrorsToCSV` in
`src/validate.js` and `generate-import-file.js`).

The engine consumes the raw markdown text together with the token tree
produced by the external `marked` parser.  The parser is an external
collaborator, so `validateMarkdown` is embedded here as a function of the
parse outcome (`Except Unit (List Token)`): `Except.error` models the
parser throwing, `Except.ok tokens` models a successful tokenization.
JavaScript `undefined`/missing string fields are modelled as `Option
String` with `none`; JavaScript string falsiness (`!x`, `x || d`) is
modelled by `jsFalsy`/`jsOr`.
-/

set_option maxHeartbeats 1000000
set_option maxRecDepth 4000

namespace MarkdownValidation

/-- A token of the tree produced by the external markdown parser
(`marked.lexer`).  Each kind carries the fields the validator reads:
`depth`/`text` for headings, `text`/`href` for images and links, `lang`
for code blocks, and the nested `tokens` list (`children`; `[]` models an
absent `.tokens` property) for container tokens. -/
inductive Token where
  | heading (depth : Nat) (text : String) (children : List Token)
  | code (lang : Option String)
  | image (text : Option String) (href : Option String)
  | table (children : List Token)
  | blockquote (children : List Token)
  | list (children : List Token)
  | link (text : Option String) (href : Option String) (children : List Token)
  | paragraph (children : List Token)
  | text (children : List Token)
  | space

/-- The `.tokens` property of a token (`[]` when absent: images, code,
and space tokens carry no nested token list). -/
def Token.children : Token → List Token
  | .heading _ _ c => c
  | .code _ => []
  | .image _ _ => []
  | .table c => c
  | .blockquote c => c
  | .list c => c
  | .link _ _ c => c
  | .paragraph c => c
  | .text c => c
  | .space => []

/-- `token.type === "heading"`. -/
def Token.isHeading : Token → Bool
  | .heading _ _ _ => true
  | _ => false

/-- `token.type === "image"`. -/
def Token.isImage : Token → Bool
  | .image _ _ => true
  | _ => false

/-- `token.type === "link"`. -/
def Token.isLink : Token → Bool
  | .link _ _ _ => true
  | _ => false

/-- `h.depth === 1` (on heading tokens; false elsewhere). -/
def Token.isH1 : Token → Bool
  | .heading d _ _ => d == 1
  | _ => false

/-- The `.text` field of a token (`none` models `undefined`). -/
def Token.textField : Token → Option String
  | .heading _ s _ => some s
  | .image s _ => s
  | .link s _ _ => s
  | _ => none

/-- The `.href` field of a token (`none` models `undefined`). -/
def Token.hrefField : Token → Option String
  | .image _ h => h
  | .link _ h _ => h
  | _ => none

/-- JavaScript falsiness of a string field: `!x` is true exactly when the
field is absent (`undefined`) or the empty string. -/
def jsFalsy : Option String → Bool
  | none => true
  | some s => s == ""

/-- JavaScript `x || dflt` on a string field. -/
def jsOr (v : Option String) (dflt : String) : String :=
  if jsFalsy v then dflt else v.getD dflt

/-- `!x || x.trim() === ""`: the brokenness test the validator applies to
`href` fields and the blankness test it applies to image alt text. -/
def jsBlank (v : Option String) : Bool :=
  jsFalsy v || (v.getD "").trim == ""

/-- Character-level model of JavaScript `s.split("\n")`. -/
def splitNewline : List Char → List (List Char)
  | [] => [[]]
  | c :: rest =>
    if c = '\n' then [] :: splitNewline rest
    else
      match splitNewline rest with
      | [] => [[c]]
      | h :: t => (c :: h) :: t

/-- Character-level model of JavaScript `hay.indexOf(needle)`: the least
index at which `needle` occurs in `hay`, `none` when it does not occur. -/
def strIndexOf (hay needle : List Char) : Option Nat :=
  if needle.isPrefixOf hay then some 0
  else
    match hay with
    | [] => none
    | _ :: t => (strIndexOf t needle).map (· + 1)

/-- The record returned by `findLineNumber`: a 1-based line number and the
character index of the match. -/
structure LineLoc where
  lineNumber : Nat
  index : Nat
deriving DecidableEq, Repr

/-- `findLineNumber(markdown, searchText, startIndex)` from the source:
`markdown.indexOf(searchText, startIndex)`; on failure `null` (here
`none`), otherwise the line number is
`markdown.substring(0, index).split("\n").length`. -/
def findLineNumber (markdown searchText : String) (startIndex : Nat) : Option LineLoc :=
  match strIndexOf (markdown.data.drop startIndex) searchText.data with
  | none => none
  | some rel =>
    some { lineNumber := (splitNewline (markdown.data.take (startIndex + rel))).length,
           index := startIndex + rel }

/-- `extractLinks` from the source: pre-order walk pushing every `link`
token and recursing into every token's `.tokens` list. -/
def extractLinks : List Token → List Token
  | [] => []
  | .heading _ _ c :: rest => extractLinks c ++ extractLinks rest
  | .code _ :: rest => extractLinks rest
  | .image _ _ :: rest => extractLinks rest
  | .table c :: rest => extractLinks c ++ extractLinks rest
  | .blockquote c :: rest => extractLinks c ++ extractLinks rest
  | .list c :: rest => extractLinks c ++ extractLinks rest
  | .link s h c :: rest => Token.link s h c :: (extractLinks c ++ extractLinks rest)
  | .paragraph c :: rest => extractLinks c ++ extractLinks rest
  | .text c :: rest => extractLinks c ++ extractLinks rest
  | .space :: rest => extractLinks rest

/-- Pre-order flattening of a token forest (every token at every depth). -/
def flattenTokens : List Token → List Token
  | [] => []
  | .heading d s c :: rest => Token.heading d s c :: (flattenTokens c ++ flattenTokens rest)
  | .code l :: rest => Token.code l :: flattenTokens rest
  | .image s h :: rest => Token.image s h :: flattenTokens rest
  | .table c :: rest => Token.table c :: (flattenTokens c ++ flattenTokens rest)
  | .blockquote c :: rest => Token.blockquote c :: (flattenTokens c ++ flattenTokens rest)
  | .list c :: rest => Token.list c :: (flattenTokens c ++ flattenTokens rest)
  | .link s h c :: rest => Token.link s h c :: (flattenTokens c ++ flattenTokens rest)
  | .paragraph c :: rest => Token.paragraph c :: (flattenTokens c ++ flattenTokens rest)
  | .text c :: rest => Token.text c :: (flattenTokens c ++ flattenTokens rest)
  | .space :: rest => Token.space :: flattenTokens rest

/-- `tokens.filter(t => t.type === "heading")` (top level only). -/
def topHeadings (ts : List Token) : List Token := ts.filter Token.isHeading

/-- `tokens.filter(t => t.type === "image")` (top level only). -/
def topImages (ts : List Token) : List Token := ts.filter Token.isImage

/-- `headings.filter(h => h.depth === 1)`. -/
def h1Headings (ts : List Token) : List Token := (topHeadings ts).filter Token.isH1

/-- `images.filter(img => !img.href || img.href.trim() === "")`. -/
def brokenImages (ts : List Token) : List Token :=
  (topImages ts).filter fun i => jsBlank i.hrefField

/-- `images.filter(img => !img.text || img.text.trim() === "")`. -/
def imagesNoAlt (ts : List Token) : List Token :=
  (topImages ts).filter fun i => jsBlank i.textField

/-- `links.filter(link => !link.href || link.href.trim() === "")`, where
`links` is the full recursive collection. -/
def brokenLinks (ts : List Token) : List Token :=
  (extractLinks ts).filter fun l => jsBlank l.hrefField

/-- `img.href && (img.href.startsWith("http://") || img.href.startsWith("https://"))`. -/
def Token.isExternalImage (t : Token) : Bool :=
  !(jsFalsy t.hrefField) &&
    ((t.hrefField.getD "").startsWith "http://" || (t.hrefField.getD "").startsWith "https://")

/-- `images.filter(img => img.href && (http:// or https:// prefix))`. -/
def externalImages (ts : List Token) : List Token :=
  (topImages ts).filter Token.isExternalImage

/-- `md.split("\n").filter(line => line.length > 120)`. -/
def longLines (md : String) : List (List Char) :=
  (splitNewline md.data).filter fun l => l.length > 120

/-- One record of the `detailedErrors` array.  The trailing optional
fields model the category-specific extra keys of the pushed objects
(`heading`/`count`, `altText`/`href`, `linkText`); `none` models a key
that the object does not carry. -/
structure DetailedError where
  type : String
  category : String
  line : Option Nat
  element : String
  description : String
  heading : Option String
  count : Option Nat
  altText : Option String
  href : Option String
  linkText : Option String
deriving DecidableEq, Repr

/-- The object pushed for one depth-1 heading when `h1Count > 1`. -/
def multipleH1Entry (md : String) (h1Count : Nat) (h1 : Token) : DetailedError :=
  let h1Text := jsOr h1.textField "(no text)"
  let location := findLineNumber md ("# " ++ h1Text) 0
  { type := "Warning", category := "Multiple H1",
    line := location.map LineLoc.lineNumber,
    element := "# " ++ h1Text,
    description := "Multiple H1 headings found (SEO concern)",
    heading := some h1Text, count := some h1Count,
    altText := none, href := none, linkText := none }

/-- The object pushed for one broken image.  Note the asymmetry in the
source: the displayed alt text falls back to `"(no alt text)"`, but the
search pattern uses `img.text || ""`. -/
def brokenImageEntry (md : String) (img : Token) : DetailedError :=
  let altText := jsOr img.textField "(no alt text)"
  let location := findLineNumber md ("![" ++ jsOr img.textField "" ++ "]()") 0
  { type := "Critical", category := "Broken Image",
    line := location.map LineLoc.lineNumber,
    element := "![" ++ altText ++ "]()",
    description := "Image has empty URL",
    heading := none, count := none,
    altText := some altText, href := some "(empty)", linkText := none }

/-- The object pushed for one image missing alt text. -/
def missingAltEntry (md : String) (img : Token) : DetailedError :=
  let location := findLineNumber md ("![](" ++ jsOr img.hrefField "" ++ ")") 0
  { type := "Warning", category := "Missing Alt Text",
    line := location.map LineLoc.lineNumber,
    element := "![](" ++ jsOr img.hrefField "" ++ ")",
    description := "Image is missing alt text (accessibility issue)",
    heading := none, count := none,
    altText := some "(missing)", href := some (jsOr img.hrefField "(no URL)"), linkText := none }

/-- The object pushed for one broken link: the `[linkText]()` pattern is
tried first and `[linkText]( )` second; both use the `"(no text)"`
fallback text. -/
def brokenLinkEntry (md : String) (l : Token) : DetailedError :=
  let linkText := jsOr l.textField "(no text)"
  let location :=
    match findLineNumber md ("[" ++ linkText ++ "]()") 0 with
    | some loc => some loc
    | none => findLineNumber md ("[" ++ linkText ++ "]( )") 0
  { type := "Critical", category := "Broken Link",
    line := location.map LineLoc.lineNumber,
    element := "[" ++ linkText ++ "]()",
    description := "Link has empty URL",
    heading := none, count := none,
    altText := none, href := some "(empty)", linkText := some linkText }

/-- The `issues` array accumulated over the rule sequence (H1 rule,
broken-image rule, broken-link rule, in source order). -/
def validationIssues (ts : List Token) : List String :=
  (if (h1Headings ts).length = 0 then ["No H1 heading found"] else []) ++
  (if (brokenImages ts).length > 0 then
    [toString (brokenImages ts).length ++ " image(s) with missing URLs"] else []) ++
  (if (brokenLinks ts).length > 0 then
    [toString (brokenLinks ts).length ++ " link(s) with missing URLs"] else [])

/-- The `warnings` array accumulated over the rule sequence (multiple H1,
missing alt text, external images, long lines, in source order). -/
def validationWarnings (md : String) (ts : List Token) : List String :=
  (if (h1Headings ts).length > 1 then
    ["Multiple H1 headings found (" ++ toString (h1Headings ts).length ++ ")"] else []) ++
  (if (imagesNoAlt ts).length > 0 then
    [toString (imagesNoAlt ts).length ++ " image(s) missing alt text"] else []) ++
  (if (externalImages ts).length > 0 then
    [toString (externalImages ts).length ++ " external image(s) - consider hosting in Contentful"]
   else []) ++
  (if (longLines md).length > 10 then
    [toString (longLines md).length ++ " lines exceed 120 characters"] else [])

/-- The `detailedErrors` array accumulated over the rule sequence. -/
def validationDetails (md : String) (ts : List Token) : List DetailedError :=
  (if (h1Headings ts).length > 1 then
    (h1Headings ts).map (multipleH1Entry md (h1Headings ts).length) else []) ++
  (brokenImages ts).map (brokenImageEntry md) ++
  (imagesNoAlt ts).map (missingAltEntry md) ++
  (brokenLinks ts).map (brokenLinkEntry md)

/-- The object returned by `validateMarkdown` in `src/validate.js`. -/
structure ValidationResult where
  success : Bool
  issues : List String
  warnings : List String
  tokens : List Token
  detailedErrors : List DetailedError

/-- `validateMarkdown(md, internalTitle)` of `src/validate.js`, as a
function of the parse outcome.  `internalTitle` is only printed, never
used for the result.  On parse failure the early return carries
`success: false`, the single parse issue, and empty lists. -/
def validateMarkdown (md _internalTitle : String) (parsed : Except Unit (List Token)) :
    ValidationResult :=
  match parsed with
  | .error _ =>
    { success := false,
      issues := ["Failed to parse markdown - syntax errors present"],
      warnings := [], tokens := [], detailedErrors := [] }
  | .ok tokens =>
    { success := (validationIssues tokens).length == 0,
      issues := validationIssues tokens,
      warnings := validationWarnings md tokens,
      tokens := tokens,
      detailedErrors := validationDetails md tokens }

/-- The result object of the `validateMarkdown` copy in
`generate-import-file.js`.  That copy is identical except that its
parse-failure early return omits the `detailedErrors` key, so reading the
key yields `undefined`; the field is therefore an `Option`, `none`
modelling the absent key. -/
structure ValidationResultGen where
  success : Bool
  issues : List String
  warnings : List String
  tokens : List Token
  detailedErrors : Option (List DetailedError)

/-- `validateMarkdown` of `generate-import-file.js` (identical rule logic;
parse-failure return lacks `detailedErrors`). -/
def validateMarkdownGen (md _internalTitle : String) (parsed : Except Unit (List Token)) :
    ValidationResultGen :=
  match parsed with
  | .error _ =>
    { success := false,
      issues := ["Failed to parse markdown - syntax errors present"],
      warnings := [], tokens := [], detailedErrors := none }
  | .ok tokens =>
    { success := (validationIssues tokens).length == 0,
      issues := validationIssues tokens,
      warnings := validationWarnings md tokens,
      tokens := tokens,
      detailedErrors := some (validationDetails md tokens) }

/-- Modelled from the spec: the external markdown parser (`marked.lexer`,
not part of this repository's sources) applied to the empty document; the
spec treats the empty input as a syntactically valid document with no
tokens. -/
def lexerOnEmpty : Except Unit (List Token) := Except.ok []

/-- `String(error.line)` for the CSV: the stored number, or the
`"Unknown"` sentinel. -/
def lineFieldValue : Option Nat → String
  | none => "Unknown"
  | some n => toString n

/-- Rendering of a possibly-absent string field inside a CSV template
literal (JavaScript renders `undefined` as `"undefined"`). -/
def optField : Option String → String
  | none => "undefined"
  | some s => s

/-- Rendering of a possibly-absent numeric field inside a CSV template
literal. -/
def optNatField : Option Nat → String
  | none => "undefined"
  | some n => toString n

/-- The `additionalInfo` column computed per row by `exportErrorsToCSV`,
dispatching on the category. -/
def csvAdditionalInfo (e : DetailedError) : String :=
  if e.category == "Broken Image" then "Alt: \"" ++ optField e.altText ++ "\""
  else if e.category == "Broken Link" then "Text: \"" ++ optField e.linkText ++ "\""
  else if e.category == "Missing Alt Text" then "URL: \"" ++ optField e.href ++ "\""
  else if e.category == "Multiple H1" then "Total H1s: " ++ optNatField e.count
  else ""

/-- `str.replace(/"/g, '""')`: double every double-quote character. -/
def escQuotes : List Char → List Char
  | [] => []
  | c :: rest => if c = '"' then '"' :: '"' :: escQuotes rest else c :: escQuotes rest

/-- `str.includes('"') || str.includes(",") || str.includes("\n")`. -/
def needsQuoting (s : String) : Bool :=
  s.data.contains '"' || s.data.contains ',' || s.data.contains '\n'

/-- `escapeCSV` from the source: wrap in double quotes, doubling interior
double quotes, exactly when the field contains a comma, a double quote or
a newline. -/
def escapeCSV (s : String) : String :=
  if needsQuoting s then String.mk ('"' :: (escQuotes s.data ++ ['"'])) else s

/-- `[...].join(",")` at character level. -/
def joinComma : List String → List Char
  | [] => []
  | [s] => s.data
  | s :: rest => s.data ++ ',' :: joinComma rest

/-- `[...].join("\n")` at character level. -/
def joinNewline : List (List Char) → List Char
  | [] => []
  | [s] => s
  | s :: rest => s ++ '\n' :: joinNewline rest

/-- The CSV header row of `exportErrorsToCSV`. -/
def csvHeaders : List String :=
  ["Type", "Category", "Line", "Element", "Description", "Additional Info"]

/-- The six field values of one CSV row, before escaping. -/
def csvFields (e : DetailedError) : List String :=
  [e.type, e.category, lineFieldValue e.line, e.element, e.description, csvAdditionalInfo e]

/-- One data row of the CSV: the six escaped fields joined with commas. -/
def csvRow (e : DetailedError) : List Char :=
  joinComma ((csvFields e).map escapeCSV)

/-- `exportErrorsToCSV`: `none` models the early return with nothing to
export; otherwise the produced file content `[header, ...rows].join("\n")`. -/
def exportErrorsToCSV (detailedErrors : List DetailedError) : Option String :=
  if detailedErrors.length = 0 then none
  else some (String.mk (joinNewline (joinComma csvHeaders :: detailedErrors.map csvRow)))

/-- A CSV row parser: split on commas outside double quotes, undoing the
quote doubling (the inverse direction of the round-trip property). -/
def splitCSVRow : List Char → List Char → Bool → List String
  | [], cur, _ => [String.mk cur.reverse]
  | '"' :: '"' :: rest, cur, true => splitCSVRow rest ('"' :: cur) true
  | '"' :: rest, cur, true => splitCSVRow rest cur false
  | c :: rest, cur, true => splitCSVRow rest (c :: cur) true
  | ',' :: rest, cur, false => String.mk cur.reverse :: splitCSVRow rest [] false
  | '"' :: rest, cur, false => splitCSVRow rest cur true
  | c :: rest, cur, false => splitCSVRow rest (c :: cur) false

/-! ## Helper lemmas -/

theorem multipleH1Entry_category (md : String) (n : Nat) (t : Token) :
    (multipleH1Entry md n t).category = "Multiple H1" := rfl

theorem brokenImageEntry_category (md : String) (t : Token) :
    (brokenImageEntry md t).category = "Broken Image" := rfl

theorem missingAltEntry_category (md : String) (t : Token) :
    (missingAltEntry md t).category = "Missing Alt Text" := rfl

theorem brokenLinkEntry_category (md : String) (t : Token) :
    (brokenLinkEntry md t).category = "Broken Link" := rfl

theorem validateMarkdown_success_eq (md title : String) (p : Except Unit (List Token)) :
    (validateMarkdown md title p).success = (validateMarkdown md title p).issues.isEmpty := by
  cases p with
  | error e => rfl
  | ok ts =>
    show ((validationIssues ts).length == 0) = (validationIssues ts).isEmpty
    cases validationIssues ts <;> rfl

theorem digitChar_isDigit (m : Nat) (h : m < 10) : (Nat.digitChar m).isDigit = true := by
  interval_cases m <;> decide

theorem toDigitsCore_digits (f : Nat) :
    ∀ (n : Nat) (l : List Char), ∀ c ∈ Nat.toDigitsCore 10 f n l, c ∈ l ∨ c.isDigit = true := by
  induction f with
  | zero => intro n l c hc; exact Or.inl hc
  | succ f ih =>
    intro n l c hc
    simp only [Nat.toDigitsCore] at hc
    by_cases h0 : n / 10 = 0
    · simp only [h0, if_pos] at hc
      rcases List.mem_cons.mp hc with rfl | hl
      · exact Or.inr (digitChar_isDigit _ (Nat.mod_lt _ (by omega)))
      · exact Or.inl hl
    · simp only [h0, if_neg, if_false] at hc
      rcases ih (n / 10) (Nat.digitChar (n % 10) :: l) c hc with hmem | hd
      · rcases List.mem_cons.mp hmem with rfl | hl
        · exact Or.inr (digitChar_isDigit _ (Nat.mod_lt _ (by omega)))
        · exact Or.inl hl
      · exact Or.inr hd

theorem toDigitsCore_ne_nil (f : Nat) :
    ∀ (n : Nat) (l : List Char), Nat.toDigitsCore 10 f n l = [] → l = [] := by
  induction f with
  | zero => intro n l h; exact h
  | succ f ih =>
    intro n l h
    simp only [Nat.toDigitsCore] at h
    by_cases h0 : n / 10 = 0
    · simp [h0] at h
    · simp only [h0, if_neg, if_false] at h
      have := ih (n / 10) (Nat.digitChar (n % 10) :: l) h
      simp at this

theorem toDigits_ne_nil (n : Nat) : Nat.toDigits 10 n ≠ [] := by
  unfold Nat.toDigits
  simp only [Nat.toDigitsCore]
  by_cases h0 : n / 10 = 0
  · simp [h0]
  · simp only [h0, if_neg, if_false]
    intro h
    have := toDigitsCore_ne_nil n (n / 10) [Nat.digitChar (n % 10)] h
    simp at this

theorem repr_head_isDigit (n : Nat) :
    ∃ c t, (Nat.repr n).data = c :: t ∧ c.isDigit = true := by
  have hd : (Nat.repr n).data = Nat.toDigits 10 n := rfl
  obtain ⟨c, t, hct⟩ : ∃ c t, Nat.toDigits 10 n = c :: t := by
    cases h : Nat.toDigits 10 n with
    | nil => exact absurd h (toDigits_ne_nil n)
    | cons c t => exact ⟨c, t, rfl⟩
  refine ⟨c, t, by rw [hd, hct], ?_⟩
  have hmem : c ∈ Nat.toDigitsCore 10 (n + 1) n [] := by
    show c ∈ Nat.toDigits 10 n
    rw [hct]; exact List.mem_cons_self c t
  rcases toDigitsCore_digits (n + 1) n [] c hmem with h | h
  · simp at h
  · exact h

theorem toString_ne_multipleH1 (k : Nat) (s t : String) :
    toString k ++ s ≠ "Multiple H1 headings found (" ++ t := by
  intro h
  have hdata := congrArg String.data h
  rw [String.data_append, String.data_append] at hdata
  obtain ⟨c, cs, hct, hd⟩ := repr_head_isDigit k
  have hts : (toString k : String).data = (Nat.repr k).data := rfl
  rw [hts, hct] at hdata
  have hM : ("Multiple H1 headings found (" : String).data
      = 'M' :: ("ultiple H1 headings found (" : String).data := rfl
  rw [hM] at hdata
  have hcM : c = 'M' := (List.cons_eq_cons.mp hdata).1
  rw [hcM] at hd
  simp at hd

theorem strAppend_assoc (a b c : String) : a ++ b ++ c = a ++ (b ++ c) := by
  apply String.ext
  simp [String.data_append]

/-! ## Claims -/

/-- C1: for every rawText, title and parse outcome, the ValidationResult
has success = true exactly when its issues list is empty; warnings play no
role in the success computation. -/
theorem validate_success_iff_issues_empty (md title : String)
    (parsed : Except Unit (List Token)) :
    (validateMarkdown md title parsed).success = true ↔
      (validateMarkdown md title parsed).issues = [] := by
  rw [validateMarkdown_success_eq]
  exact List.isEmpty_iff

/-- C1 witness: a document with two H1 headings and nothing else broken
has empty issues and a non-empty warnings list, and success is true. -/
theorem validate_success_iff_issues_empty_witness :
    (validateMarkdown "# A\n# B" "t"
      (Except.ok [Token.heading 1 "A" [], Token.heading 1 "B" []])).success = true ∧
    (validateMarkdown "# A\n# B" "t"
      (Except.ok [Token.heading 1 "A" [], Token.heading 1 "B" []])).warnings ≠ [] :=
  ⟨(validate_success_iff_issues_empty "# A\n# B" "t"
      (Except.ok [Token.heading 1 "A" [], Token.heading 1 "B" []])).mpr
    (by simp [validateMarkdown, validationIssues, h1Headings, topHeadings, Token.isHeading,
          Token.isH1, brokenImages, topImages, Token.isImage, jsBlank, jsFalsy, brokenLinks,
          extractLinks]),
   by decide⟩

/-- C2: when the parser raises, `validateMarkdown` of `src/validate.js`
returns success = false, the single parse issue, empty warnings, empty
tokens, and detailedErrors = []; but the `generate-import-file.js` copy's
early return omits the detailedErrors key entirely (here: `none`), so its
result does not carry an empty list. -/
theorem validate_parse_failure (md title : String) :
    validateMarkdown md title (Except.error ()) =
      { success := false,
        issues := ["Failed to parse markdown - syntax errors present"],
        warnings := [], tokens := [], detailedErrors := [] } ∧
    (validateMarkdownGen md title (Except.error ())).detailedErrors = none :=
  ⟨rfl, rfl⟩

/-- C3: a document with zero depth-1 headings always yields the issue
"No H1 heading found", success = false, and no "Multiple H1" detailed
error. -/
theorem validate_no_h1 (md title : String) (ts : List Token)
    (h : h1Headings ts = []) :
    "No H1 heading found" ∈ (validateMarkdown md title (Except.ok ts)).issues ∧
    (validateMarkdown md title (Except.ok ts)).success = false ∧
    ∀ e ∈ (validateMarkdown md title (Except.ok ts)).detailedErrors,
      e.category ≠ "Multiple H1" := by
  refine ⟨?_, ?_, ?_⟩
  · show "No H1 heading found" ∈ validationIssues ts
    simp [validationIssues, h]
  · show ((validationIssues ts).length == 0) = false
    simp [validationIssues, h, List.length_append]
  · intro e he
    have he' : e ∈ validationDetails md ts := he
    simp only [validationDetails, h, List.length_nil, List.mem_append] at he'
    rcases he' with ((h1 | h2) | h3) | h4
    · simp at h1
    · obtain ⟨a, _, rfl⟩ := List.mem_map.mp h2
      simp [brokenImageEntry_category]
    · obtain ⟨a, _, rfl⟩ := List.mem_map.mp h3
      simp [missingAltEntry_category]
    · obtain ⟨a, _, rfl⟩ := List.mem_map.mp h4
      simp [brokenLinkEntry_category]

/-- C3 witness: the token-free document. -/
theorem validate_no_h1_witness :
    "No H1 heading found" ∈ (validateMarkdown "" "t" (Except.ok [])).issues ∧
    (validateMarkdown "" "t" (Except.ok [])).success = false :=
  ⟨(validate_no_h1 "" "t" [] rfl).1, (validate_no_h1 "" "t" [] rfl).2.1⟩

/-- C10: the empty document parses to an empty token list (spec-modelled
behavior of the external parser) and validates to success = false with
exactly the "No H1 heading found" issue, empty warnings, and empty
detailedErrors. -/
theorem validate_empty_document (title : String) :
    validateMarkdown "" title lexerOnEmpty =
      { success := false, issues := ["No H1 heading found"],
        warnings := [], tokens := [], detailedErrors := [] } := by
  have h1 : validationIssues [] = ["No H1 heading found"] := by
    simp [validationIssues, h1Headings, topHeadings, brokenImages, topImages,
      brokenLinks, extractLinks]
  have h2 : validationWarnings "" [] = [] := by decide
  have h3 : validationDetails "" [] = [] := by
    simp [validationDetails, h1Headings, topHeadings, brokenImages, imagesNoAlt,
      topImages, brokenLinks, extractLinks]
  show ValidationResult.mk ((validationIssues []).length == 0) (validationIssues [])
      (validationWarnings "" []) [] (validationDetails "" []) = _
  rw [h1, h2, h3]
  rfl

theorem strIndexOf_some_spec (needle : List Char) :
    ∀ (hay : List Char) (i : Nat), strIndexOf hay needle = some i →
      needle.isPrefixOf (hay.drop i) = true ∧
      ∀ j, j < i → needle.isPrefixOf (hay.drop j) = false := by
  intro hay
  induction hay with
  | nil =>
    intro i h
    unfold strIndexOf at h
    by_cases hp : needle.isPrefixOf ([] : List Char) = true
    · rw [if_pos hp] at h
      simp only [Option.some.injEq] at h
      subst h
      exact ⟨hp, fun j hj => absurd hj (Nat.not_lt_zero j)⟩
    · rw [if_neg hp] at h
      simp at h
  | cons c t ih =>
    intro i h
    unfold strIndexOf at h
    by_cases hp : needle.isPrefixOf (c :: t) = true
    · rw [if_pos hp] at h
      simp only [Option.some.injEq] at h
      subst h
      exact ⟨hp, fun j hj => absurd hj (Nat.not_lt_zero j)⟩
    · rw [if_neg hp] at h
      have h2 : (strIndexOf t needle).map (· + 1) = some i := h
      cases hso : strIndexOf t needle with
      | none => rw [hso] at h2; simp at h2
      | some i' =>
        rw [hso] at h2
        simp only [Option.map_some', Option.some.injEq] at h2
        subst h2
        obtain ⟨h1, h2⟩ := ih i' hso
        refine ⟨by simpa using h1, ?_⟩
        intro j hj
        cases j with
        | zero => simp only [List.drop_zero]; exact Bool.eq_false_iff.mpr hp
        | succ j' =>
          have := h2 j' (by omega)
          simpa using this

theorem strIndexOf_none_spec (needle : List Char) :
    ∀ hay : List Char, strIndexOf hay needle = none →
      ∀ j, needle.isPrefixOf (hay.drop j) = false := by
  intro hay
  induction hay with
  | nil =>
    intro h j
    unfold strIndexOf at h
    by_cases hp : needle.isPrefixOf ([] : List Char) = true
    · rw [if_pos hp] at h
      simp at h
    · simp only [List.drop_nil]
      exact Bool.eq_false_iff.mpr hp
  | cons c t ih =>
    intro h j
    unfold strIndexOf at h
    by_cases hp : needle.isPrefixOf (c :: t) = true
    · rw [if_pos hp] at h
      simp at h
    · rw [if_neg hp] at h
      have h2 : (strIndexOf t needle).map (· + 1) = none := h
      cases j with
      | zero => simp only [List.drop_zero]; exact Bool.eq_false_iff.mpr hp
      | succ j' =>
        cases hso : strIndexOf t needle with
        | some i => rw [hso] at h2; simp at h2
        | none =>
          have := ih hso j'
          simpa using this

theorem splitNewline_length (l : List Char) :
    (splitNewline l).length = l.count '\n' + 1 := by
  induction l with
  | nil => rfl
  | cons c rest ih =>
    by_cases hc : c = '\n'
    · subst hc
      simp [splitNewline, List.count_cons, ih]
    · simp only [splitNewline, if_neg hc]
      cases hsp : splitNewline rest with
      | nil => rw [hsp] at ih; simp at ih
      | cons h t =>
        rw [hsp] at ih
        simp only [List.length_cons] at ih ⊢
        rw [List.count_cons]
        simp only [beq_iff_eq, hc, if_false]
        omega

/-- C7: the line locator reports the first occurrence of the search text:
on success, the match index is the least index where the search text is a
prefix of the remaining raw text and the reported line is 1 plus the
number of newline characters strictly before the match; on failure the
search text occurs nowhere.  The concrete example of the spec resolves
"# Title" to line 3. -/
theorem findLineNumber_line_policy (markdown searchText : String) :
    (∀ loc, findLineNumber markdown searchText 0 = some loc →
        searchText.data.isPrefixOf (markdown.data.drop loc.index) = true ∧
        (∀ j, j < loc.index → searchText.data.isPrefixOf (markdown.data.drop j) = false) ∧
        loc.lineNumber = (markdown.data.take loc.index).count '\n' + 1) ∧
    (findLineNumber markdown searchText 0 = none →
        ∀ j, searchText.data.isPrefixOf (markdown.data.drop j) = false) ∧
    findLineNumber "line1\nline2\n# Title\nline4" "# Title" 0 =
      some { lineNumber := 3, index := 12 } := by
  refine ⟨?_, ?_, by decide⟩
  · intro loc h
    unfold findLineNumber at h
    cases hso : strIndexOf (markdown.data.drop 0) searchText.data with
    | none => rw [hso] at h; simp at h
    | some rel =>
      rw [hso] at h
      simp only [Option.some.injEq] at h
      obtain ⟨hpre, hmin⟩ := strIndexOf_some_spec searchText.data (markdown.data.drop 0) rel hso
      subst h
      refine ⟨by simpa using hpre, ?_, ?_⟩
      · intro j hj
        have := hmin j (by simpa using hj)
        simpa using this
      · simp [splitNewline_length]
  · intro h j
    unfold findLineNumber at h
    cases hso : strIndexOf (markdown.data.drop 0) searchText.data with
    | some rel => rw [hso] at h; simp at h
    | none =>
      have := strIndexOf_none_spec searchText.data (markdown.data.drop 0) hso j
      simpa using this

/-- C7 witness: locating "cd" in "ab\ncd" lands at index 3, line 2. -/
theorem findLineNumber_line_policy_witness :
    "cd".data.isPrefixOf ("ab\ncd".data.drop 3) = true ∧
    2 = ("ab\ncd".data.take 3).count '\n' + 1 := by
  have h := (findLineNumber_line_policy "ab\ncd" "cd").1 { lineNumber := 2, index := 3 }
    (by decide)
  exact ⟨h.1, h.2.2⟩

theorem extractLinks_eq_filter (ts : List Token) :
    extractLinks ts = (flattenTokens ts).filter Token.isLink := by
  induction ts using extractLinks.induct <;>
    simp_all [extractLinks, flattenTokens, Token.isLink, List.filter_append]

/-- C9: the broken-link rule sees every link token at every nesting depth
(the traversal is the full pre-order filter of the tree), while the image
rules only see top-level image tokens: if no top-level token is an image,
no broken-image or missing-alt finding is produced and the issues list
only has the H1 and link contributions — even when nested images exist. -/
theorem links_collected_deep_images_shallow (md title : String) (ts : List Token)
    (h : ∀ t ∈ ts, t.isImage = false) :
    extractLinks ts = (flattenTokens ts).filter Token.isLink ∧
    topImages ts = [] ∧
    (validateMarkdown md title (Except.ok ts)).detailedErrors.filter
        (fun e => e.category == "Broken Image" || e.category == "Missing Alt Text") = [] ∧
    (validateMarkdown md title (Except.ok ts)).issues =
      (if (h1Headings ts).length = 0 then ["No H1 heading found"] else []) ++
      (if (brokenLinks ts).length > 0 then
        [toString (brokenLinks ts).length ++ " link(s) with missing URLs"] else []) := by
  have htop : topImages ts = [] := by
    apply List.filter_eq_nil_iff.mpr
    intro t ht
    simp [h t ht]
  have hbi : brokenImages ts = [] := by simp [brokenImages, htop]
  have hna : imagesNoAlt ts = [] := by simp [imagesNoAlt, htop]
  refine ⟨extractLinks_eq_filter ts, htop, ?_, ?_⟩
  · apply List.filter_eq_nil_iff.mpr
    intro e he
    have he' : e ∈ validationDetails md ts := he
    simp only [validationDetails, hbi, hna, List.map_nil, List.nil_append,
      List.append_nil, List.mem_append] at he'
    rcases he' with h1 | h4
    · by_cases hh : (h1Headings ts).length > 1
      · rw [if_pos hh] at h1
        obtain ⟨a, _, rfl⟩ := List.mem_map.mp h1
        simp [multipleH1Entry_category]
      · rw [if_neg hh] at h1
        simp at h1
    · obtain ⟨a, _, rfl⟩ := List.mem_map.mp h4
      simp [brokenLinkEntry_category]
  · show validationIssues ts = _
    simp [validationIssues, hbi]

/-- C9 witness: a broken image nested in a blockquote is invisible while a
broken link nested in a paragraph is found. -/
theorem links_collected_deep_images_shallow_witness :
    extractLinks [Token.blockquote [Token.image (some "A") (some "")],
        Token.paragraph [Token.link (some "L") (some "") []]] =
      [Token.link (some "L") (some "") []] ∧
    (validateMarkdown "x" "t" (Except.ok [Token.blockquote [Token.image (some "A") (some "")],
        Token.paragraph [Token.link (some "L") (some "") []]])).detailedErrors.filter
        (fun e => e.category == "Broken Image" || e.category == "Missing Alt Text") = [] ∧
    (validateMarkdown "x" "t" (Except.ok [Token.blockquote [Token.image (some "A") (some "")],
        Token.paragraph [Token.link (some "L") (some "") []]])).issues =
      ["No H1 heading found", "1 link(s) with missing URLs"] := by
  have h := links_collected_deep_images_shallow "x" "t"
    [Token.blockquote [Token.image (some "A") (some "")],
     Token.paragraph [Token.link (some "L") (some "") []]] (by decide)
  have hbl : brokenLinks [Token.blockquote [Token.image (some "A") (some "")],
      Token.paragraph [Token.link (some "L") (some "") []]] =
      [Token.link (some "L") (some "") []] := by
    simp [brokenLinks, extractLinks, jsBlank, jsFalsy, Token.hrefField]
  refine ⟨h.1.trans ?_, h.2.2.1, (h.2.2.2).trans ?_⟩
  · simp [flattenTokens, Token.isLink]
  · rw [hbl]
    decide

theorem count_ifsingle_eq_zero (w x : String) (c : Prop) [Decidable c] (h : x ≠ w) :
    (if c then [x] else []).count w = 0 := by
  split
  · simp [List.count_cons, h]
  · rfl

/-- C4: with N > 1 depth-1 headings, exactly one multiple-H1 warning
string is emitted, exactly N detailedErrors of category "Multiple H1" are
emitted (one per depth-1 heading, Warning severity, fixed description,
CSV additionalInfo "Total H1s: N"), and the rule contributes no issue, so
on its own it never falsifies success. -/
theorem validate_multiple_h1 (md title : String) (ts : List Token) (N : Nat)
    (hN : (h1Headings ts).length = N) (hgt : 1 < N) :
    (validateMarkdown md title (Except.ok ts)).warnings.count
        ("Multiple H1 headings found (" ++ toString N ++ ")") = 1 ∧
    (validateMarkdown md title (Except.ok ts)).detailedErrors.filter
        (fun e => e.category == "Multiple H1") = (h1Headings ts).map (multipleH1Entry md N) ∧
    ((validateMarkdown md title (Except.ok ts)).detailedErrors.filter
        (fun e => e.category == "Multiple H1")).length = N ∧
    (∀ e ∈ (validateMarkdown md title (Except.ok ts)).detailedErrors.filter
        (fun e => e.category == "Multiple H1"),
      e.type = "Warning" ∧
      e.description = "Multiple H1 headings found (SEO concern)" ∧
      csvAdditionalInfo e = "Total H1s: " ++ toString N) ∧
    (brokenImages ts = [] → brokenLinks ts = [] →
      (validateMarkdown md title (Except.ok ts)).success = true) := by
  have hne : ∀ (k : Nat) (s : String),
      toString k ++ s ≠ "Multiple H1 headings found (" ++ toString N ++ ")" :=
    fun k s h => toString_ne_multipleH1 k s (toString N ++ ")")
      (h.trans (strAppend_assoc "Multiple H1 headings found (" (toString N) ")"))
  have hB : (validationDetails md ts).filter (fun e => e.category == "Multiple H1")
      = (h1Headings ts).map (multipleH1Entry md N) := by
    unfold validationDetails
    rw [hN, if_pos hgt]
    rw [List.filter_append, List.filter_append, List.filter_append]
    have f1 : ((h1Headings ts).map (multipleH1Entry md N)).filter
        (fun e => e.category == "Multiple H1") = (h1Headings ts).map (multipleH1Entry md N) := by
      apply List.filter_eq_self.mpr
      intro e he
      obtain ⟨a, _, rfl⟩ := List.mem_map.mp he
      simp [multipleH1Entry_category]
    have f2 : ((brokenImages ts).map (brokenImageEntry md)).filter
        (fun e => e.category == "Multiple H1") = [] := by
      apply List.filter_eq_nil_iff.mpr
      intro e he
      obtain ⟨a, _, rfl⟩ := List.mem_map.mp he
      simp [brokenImageEntry_category]
    have f3 : ((imagesNoAlt ts).map (missingAltEntry md)).filter
        (fun e => e.category == "Multiple H1") = [] := by
      apply List.filter_eq_nil_iff.mpr
      intro e he
      obtain ⟨a, _, rfl⟩ := List.mem_map.mp he
      simp [missingAltEntry_category]
    have f4 : ((brokenLinks ts).map (brokenLinkEntry md)).filter
        (fun e => e.category == "Multiple H1") = [] := by
      apply List.filter_eq_nil_iff.mpr
      intro e he
      obtain ⟨a, _, rfl⟩ := List.mem_map.mp he
      simp [brokenLinkEntry_category]
    rw [f1, f2, f3, f4]
    simp
  refine ⟨?_, hB, ?_, ?_, ?_⟩
  · show (validationWarnings md ts).count _ = 1
    unfold validationWarnings
    rw [hN, if_pos hgt]
    rw [List.count_append, List.count_append, List.count_append]
    rw [count_ifsingle_eq_zero _ _ _ (hne _ _), count_ifsingle_eq_zero _ _ _ (hne _ _),
        count_ifsingle_eq_zero _ _ _ (hne _ _)]
    simp
  · show ((validationDetails md ts).filter (fun e => e.category == "Multiple H1")).length = N
    rw [hB, List.length_map, hN]
  · intro e he
    have he2 : e ∈ (validationDetails md ts).filter (fun e => e.category == "Multiple H1") := he
    rw [hB] at he2
    obtain ⟨a, _, rfl⟩ := List.mem_map.mp he2
    exact ⟨rfl, rfl, rfl⟩
  · intro hbi hbl
    show ((validationIssues ts).length == 0) = true
    unfold validationIssues
    rw [hN, hbi, hbl]
    rw [if_neg (by omega)]
    simp

/-- C4 witness: two H1 headings. -/
theorem validate_multiple_h1_witness :
    (validateMarkdown "# A\n# B" "t"
        (Except.ok [Token.heading 1 "A" [], Token.heading 1 "B" []])).warnings.count
        ("Multiple H1 headings found (" ++ toString 2 ++ ")") = 1 ∧
    ((validateMarkdown "# A\n# B" "t"
        (Except.ok [Token.heading 1 "A" [], Token.heading 1 "B" []])).detailedErrors.filter
        (fun e => e.category == "Multiple H1")).length = 2 ∧
    csvAdditionalInfo (multipleH1Entry "# A\n# B" 2 (Token.heading 1 "A" [])) =
      "Total H1s: " ++ toString 2 ∧
    (validateMarkdown "# A\n# B" "t"
        (Except.ok [Token.heading 1 "A" [], Token.heading 1 "B" []])).success = true := by
  have h := validate_multiple_h1 "# A\n# B" "t"
    [Token.heading 1 "A" [], Token.heading 1 "B" []] 2 (by decide) (by decide)
  refine ⟨h.1, h.2.2.1, ?_, ?_⟩
  · exact (h.2.2.2.1 (multipleH1Entry "# A\n# B" 2 (Token.heading 1 "A" []))
      (by rw [h.2.1]; decide)).2.2
  · exact h.2.2.2.2 (by simp [brokenImages, topImages, Token.isImage])
      (by simp [brokenLinks, extractLinks])

/-- C5 counterexample: for the broken image `![]()` (empty alt text), the
emitted entry displays altText "(no alt text)" in element/additionalInfo,
yet its line is resolved (line 2 here) even though the literal
"![(no alt text)]()" — the claim's "![altText]()" search string — occurs
nowhere in the raw text: the search uses the raw alt text, not the
displayed fallback. -/
theorem broken_image_search_uses_raw_alt :
    (validateMarkdown "x\n![]()" "t"
        (Except.ok [Token.image (some "") (some "")])).detailedErrors.filter
        (fun e => e.category == "Broken Image") =
      [{ type := "Critical", category := "Broken Image", line := some 2,
         element := "![(no alt text)]()", description := "Image has empty URL",
         heading := none, count := none, altText := some "(no alt text)",
         href := some "(empty)", linkText := none }] ∧
    findLineNumber "x\n![]()" "![(no alt text)]()" 0 = none := by
  constructor
  · show (validationDetails "x\n![]()" [Token.image (some "") (some "")]).filter _ = _
    have hbl : brokenLinks [Token.image (some "") (some "")] = [] := by
      simp [brokenLinks, extractLinks]
    unfold validationDetails
    rw [hbl]
    decide
  · decide

/-- C5 (amended): K > 0 broken top-level images yield the Critical issue
"K image(s) with missing URLs" (so success = false) and one "Broken
Image" detailedErrors entry per broken image with element and CSV
additionalInfo built from altText = img.text or "(no alt text)", while
the line is resolved by locating "![" + (img.text or "") + "]()" — the
search pattern uses the raw alt text with an empty fallback, not the
displayed "(no alt text)" fallback. -/
theorem validate_broken_images (md title : String) (ts : List Token) (K : Nat)
    (hK : (brokenImages ts).length = K) (hpos : 0 < K) :
    (toString K ++ " image(s) with missing URLs") ∈
      (validateMarkdown md title (Except.ok ts)).issues ∧
    (validateMarkdown md title (Except.ok ts)).success = false ∧
    (validateMarkdown md title (Except.ok ts)).detailedErrors.filter
        (fun e => e.category == "Broken Image") = (brokenImages ts).map (brokenImageEntry md) ∧
    ∀ img ∈ brokenImages ts,
      (brokenImageEntry md img).type = "Critical" ∧
      (brokenImageEntry md img).element = "![" ++ jsOr img.textField "(no alt text)" ++ "]()" ∧
      (brokenImageEntry md img).description = "Image has empty URL" ∧
      csvAdditionalInfo (brokenImageEntry md img) =
        "Alt: \"" ++ jsOr img.textField "(no alt text)" ++ "\"" ∧
      (brokenImageEntry md img).line =
        (findLineNumber md ("![" ++ jsOr img.textField "" ++ "]()") 0).map LineLoc.lineNumber ∧
      brokenImageEntry md img ∈ (validateMarkdown md title (Except.ok ts)).detailedErrors := by
  have hmem : (toString K ++ " image(s) with missing URLs") ∈ validationIssues ts := by
    unfold validationIssues
    rw [hK, if_pos hpos]
    simp [List.mem_append]
  refine ⟨hmem, ?_, ?_, ?_⟩
  · show ((validationIssues ts).length == 0) = false
    have hne : validationIssues ts ≠ [] := List.ne_nil_of_mem hmem
    cases hI : validationIssues ts with
    | nil => exact absurd hI hne
    | cons a l => rfl
  · show (validationDetails md ts).filter (fun e => e.category == "Broken Image")
        = (brokenImages ts).map (brokenImageEntry md)
    unfold validationDetails
    rw [List.filter_append, List.filter_append, List.filter_append]
    have f1 : ((if (h1Headings ts).length > 1 then
        (h1Headings ts).map (multipleH1Entry md (h1Headings ts).length) else []).filter
        (fun e => e.category == "Broken Image")) = [] := by
      apply List.filter_eq_nil_iff.mpr
      intro e he
      by_cases hc : (h1Headings ts).length > 1
      · rw [if_pos hc] at he
        obtain ⟨a, _, rfl⟩ := List.mem_map.mp he
        simp [multipleH1Entry_category]
      · rw [if_neg hc] at he
        simp at he
    have f2 : ((brokenImages ts).map (brokenImageEntry md)).filter
        (fun e => e.category == "Broken Image") = (brokenImages ts).map (brokenImageEntry md) := by
      apply List.filter_eq_self.mpr
      intro e he
      obtain ⟨a, _, rfl⟩ := List.mem_map.mp he
      simp [brokenImageEntry_category]
    have f3 : ((imagesNoAlt ts).map (missingAltEntry md)).filter
        (fun e => e.category == "Broken Image") = [] := by
      apply List.filter_eq_nil_iff.mpr
      intro e he
      obtain ⟨a, _, rfl⟩ := List.mem_map.mp he
      simp [missingAltEntry_category]
    have f4 : ((brokenLinks ts).map (brokenLinkEntry md)).filter
        (fun e => e.category == "Broken Image") = [] := by
      apply List.filter_eq_nil_iff.mpr
      intro e he
      obtain ⟨a, _, rfl⟩ := List.mem_map.mp he
      simp [brokenLinkEntry_category]
    rw [f1, f2, f3, f4]
    simp
  · intro img himg
    refine ⟨rfl, rfl, rfl, rfl, rfl, ?_⟩
    show brokenImageEntry md img ∈ validationDetails md ts
    unfold validationDetails
    refine List.mem_append.mpr (Or.inl (List.mem_append.mpr (Or.inl
      (List.mem_append.mpr (Or.inr ?_)))))
    exact List.mem_map.mpr ⟨img, himg, rfl⟩

/-- C5 witness: the spec's Scenario C input `![Alt]()`. -/
theorem validate_broken_images_witness :
    (toString 1 ++ " image(s) with missing URLs") ∈
      (validateMarkdown "![Alt]()" "t"
        (Except.ok [Token.image (some "Alt") (some "")])).issues ∧
    (validateMarkdown "![Alt]()" "t"
        (Except.ok [Token.image (some "Alt") (some "")])).success = false ∧
    (brokenImageEntry "![Alt]()" (Token.image (some "Alt") (some ""))).line = some 1 ∧
    brokenImageEntry "![Alt]()" (Token.image (some "Alt") (some "")) ∈
      (validateMarkdown "![Alt]()" "t"
        (Except.ok [Token.image (some "Alt") (some "")])).detailedErrors := by
  have h := validate_broken_images "![Alt]()" "t" [Token.image (some "Alt") (some "")] 1
    (by decide) (by decide)
  have himg : Token.image (some "Alt") (some "") ∈
      brokenImages [Token.image (some "Alt") (some "")] := by
    rw [show brokenImages [Token.image (some "Alt") (some "")]
        = [Token.image (some "Alt") (some "")] from rfl]
    exact List.mem_singleton.mpr rfl
  refine ⟨h.1, h.2.1, ?_, ?_⟩
  · exact ((h.2.2.2 _ himg).2.2.2.2.1).trans (by decide)
  · exact (h.2.2.2 _ himg).2.2.2.2.2

/-- C6: every broken link produces a Critical "Broken Link" entry that is
always appended; its line comes from trying "[linkText]()" first, then
"[linkText]( )", and is the "Unknown" sentinel only when both searches
fail. -/
theorem validate_broken_links_policy (md title : String) (ts : List Token) :
    (validateMarkdown md title (Except.ok ts)).detailedErrors.filter
        (fun e => e.category == "Broken Link") = (brokenLinks ts).map (brokenLinkEntry md) ∧
    ∀ l ∈ brokenLinks ts,
      ((brokenLinkEntry md l).line =
        (match findLineNumber md ("[" ++ jsOr l.textField "(no text)" ++ "]()") 0 with
         | some loc => some loc
         | none =>
           findLineNumber md ("[" ++ jsOr l.textField "(no text)" ++ "]( )") 0).map
          LineLoc.lineNumber) ∧
      (findLineNumber md ("[" ++ jsOr l.textField "(no text)" ++ "]()") 0 = none →
        findLineNumber md ("[" ++ jsOr l.textField "(no text)" ++ "]( )") 0 = none →
        (brokenLinkEntry md l).line = none) ∧
      brokenLinkEntry md l ∈ (validateMarkdown md title (Except.ok ts)).detailedErrors := by
  constructor
  · show (validationDetails md ts).filter (fun e => e.category == "Broken Link")
        = (brokenLinks ts).map (brokenLinkEntry md)
    unfold validationDetails
    rw [List.filter_append, List.filter_append, List.filter_append]
    have f1 : ((if (h1Headings ts).length > 1 then
        (h1Headings ts).map (multipleH1Entry md (h1Headings ts).length) else []).filter
        (fun e => e.category == "Broken Link")) = [] := by
      apply List.filter_eq_nil_iff.mpr
      intro e he
      by_cases hc : (h1Headings ts).length > 1
      · rw [if_pos hc] at he
        obtain ⟨a, _, rfl⟩ := List.mem_map.mp he
        simp [multipleH1Entry_category]
      · rw [if_neg hc] at he
        simp at he
    have f2 : ((brokenImages ts).map (brokenImageEntry md)).filter
        (fun e => e.category == "Broken Link") = [] := by
      apply List.filter_eq_nil_iff.mpr
      intro e he
      obtain ⟨a, _, rfl⟩ := List.mem_map.mp he
      simp [brokenImageEntry_category]
    have f3 : ((imagesNoAlt ts).map (missingAltEntry md)).filter
        (fun e => e.category == "Broken Link") = [] := by
      apply List.filter_eq_nil_iff.mpr
      intro e he
      obtain ⟨a, _, rfl⟩ := List.mem_map.mp he
      simp [missingAltEntry_category]
    have f4 : ((brokenLinks ts).map (brokenLinkEntry md)).filter
        (fun e => e.category == "Broken Link") = (brokenLinks ts).map (brokenLinkEntry md) := by
      apply List.filter_eq_self.mpr
      intro e he
      obtain ⟨a, _, rfl⟩ := List.mem_map.mp he
      simp [brokenLinkEntry_category]
    rw [f1, f2, f3, f4]
    simp
  · intro l hl
    refine ⟨rfl, ?_, ?_⟩
    · intro p1 p2
      simp [brokenLinkEntry, p1, p2]
    · show brokenLinkEntry md l ∈ validationDetails md ts
      unfold validationDetails
      refine List.mem_append.mpr (Or.inr ?_)
      exact List.mem_map.mpr ⟨l, hl, rfl⟩

/-- C6 witness: a broken link written with a space inside the parens is
located through the second search pattern. -/
theorem validate_broken_links_policy_witness :
    (brokenLinkEntry "[Click]( )" (Token.link (some "Click") (some "") [])).line = some 1 ∧
    brokenLinkEntry "[Click]( )" (Token.link (some "Click") (some "") []) ∈
      (validateMarkdown "[Click]( )" "t"
        (Except.ok [Token.paragraph [Token.link (some "Click") (some "") []]])).detailedErrors := by
  have h := validate_broken_links_policy "[Click]( )" "t"
    [Token.paragraph [Token.link (some "Click") (some "") []]]
  have hmem : Token.link (some "Click") (some "") [] ∈
      brokenLinks [Token.paragraph [Token.link (some "Click") (some "") []]] := by
    have hb : brokenLinks [Token.paragraph [Token.link (some "Click") (some "") []]]
        = [Token.link (some "Click") (some "") []] := by
      simp [brokenLinks, extractLinks, jsBlank, jsFalsy, Token.hrefField]
    rw [hb]
    exact List.mem_singleton.mpr rfl
  refine ⟨((h.2 _ hmem).1).trans (by decide), (h.2 _ hmem).2.2⟩

theorem strMk_data (s : String) : String.mk s.data = s := rfl

theorem not_mem_of_contains_false (l : List Char) (a : Char) (h : l.contains a = false) :
    a ∉ l := fun hm => by
  have he : List.elem a l = true := List.elem_iff.mpr hm
  rw [show l.contains a = List.elem a l from rfl, he] at h
  exact Bool.noConfusion h

theorem needsQuoting_false_spec (s : String) (h : needsQuoting s = false) :
    ∀ c ∈ s.data, c ≠ ',' ∧ c ≠ '"' := by
  intro c hc
  simp only [needsQuoting, Bool.or_eq_false_iff] at h
  obtain ⟨⟨h1, h2⟩, h3⟩ := h
  exact ⟨fun hq => not_mem_of_contains_false _ _ h2 (hq ▸ hc),
         fun hq => not_mem_of_contains_false _ _ h1 (hq ▸ hc)⟩

theorem splitCSVRow_unquoted_comma (f : List Char) :
    ∀ (cur rest : List Char), (∀ c ∈ f, c ≠ ',' ∧ c ≠ '"') →
      splitCSVRow (f ++ ',' :: rest) cur false
        = String.mk (cur.reverse ++ f) :: splitCSVRow rest [] false := by
  induction f with
  | nil =>
    intro cur rest hf
    simp [splitCSVRow]
  | cons c f ih =>
    intro cur rest hf
    obtain ⟨hc1, hc2⟩ := hf c (List.mem_cons_self c f)
    have hstep : splitCSVRow (c :: (f ++ ',' :: rest)) cur false
        = splitCSVRow (f ++ ',' :: rest) (c :: cur) false := by
      simp [splitCSVRow, hc1, hc2]
    simp only [List.cons_append]
    rw [hstep, ih (c :: cur) rest (fun d hd => hf d (List.mem_cons_of_mem c hd))]
    simp [List.reverse_cons, List.append_assoc]

theorem splitCSVRow_unquoted_end (f : List Char) :
    ∀ cur : List Char, (∀ c ∈ f, c ≠ ',' ∧ c ≠ '"') →
      splitCSVRow f cur false = [String.mk (cur.reverse ++ f)] := by
  induction f with
  | nil =>
    intro cur hf
    simp [splitCSVRow]
  | cons c f ih =>
    intro cur hf
    obtain ⟨hc1, hc2⟩ := hf c (List.mem_cons_self c f)
    have hstep : splitCSVRow (c :: f) cur false = splitCSVRow f (c :: cur) false := by
      simp [splitCSVRow, hc1, hc2]
    rw [hstep, ih (c :: cur) (fun d hd => hf d (List.mem_cons_of_mem c hd))]
    simp [List.reverse_cons, List.append_assoc]

theorem splitCSVRow_quoted_comma (f : List Char) :
    ∀ (cur rest : List Char),
      splitCSVRow (escQuotes f ++ '"' :: ',' :: rest) cur true
        = String.mk (cur.reverse ++ f) :: splitCSVRow rest [] false := by
  induction f with
  | nil =>
    intro cur rest
    simp [escQuotes, splitCSVRow]
  | cons c f ih =>
    intro cur rest
    by_cases hc : c = '"'
    · subst hc
      show splitCSVRow ('"' :: '"' :: (escQuotes f ++ '"' :: ',' :: rest)) cur true = _
      rw [show splitCSVRow ('"' :: '"' :: (escQuotes f ++ '"' :: ',' :: rest)) cur true
          = splitCSVRow (escQuotes f ++ '"' :: ',' :: rest) ('"' :: cur) true from by
        simp [splitCSVRow]]
      rw [ih ('"' :: cur) rest]
      simp [List.reverse_cons, List.append_assoc]
    · rw [show escQuotes (c :: f) = c :: escQuotes f from by simp [escQuotes, hc]]
      rw [show splitCSVRow (c :: escQuotes f ++ '"' :: ',' :: rest) cur true
          = splitCSVRow (escQuotes f ++ '"' :: ',' :: rest) (c :: cur) true from by
        simp [splitCSVRow, hc]]
      rw [ih (c :: cur) rest]
      simp [List.reverse_cons, List.append_assoc]

theorem splitCSVRow_quoted_end (f : List Char) :
    ∀ cur : List Char,
      splitCSVRow (escQuotes f ++ ['"']) cur true = [String.mk (cur.reverse ++ f)] := by
  induction f with
  | nil =>
    intro cur
    simp [escQuotes, splitCSVRow]
  | cons c f ih =>
    intro cur
    by_cases hc : c = '"'
    · subst hc
      show splitCSVRow ('"' :: '"' :: (escQuotes f ++ ['"'])) cur true = _
      rw [show splitCSVRow ('"' :: '"' :: (escQuotes f ++ ['"'])) cur true
          = splitCSVRow (escQuotes f ++ ['"']) ('"' :: cur) true from by simp [splitCSVRow]]
      rw [ih ('"' :: cur)]
      simp [List.reverse_cons, List.append_assoc]
    · rw [show escQuotes (c :: f) = c :: escQuotes f from by simp [escQuotes, hc]]
      rw [show splitCSVRow (c :: escQuotes f ++ ['"']) cur true
          = splitCSVRow (escQuotes f ++ ['"']) (c :: cur) true from by simp [splitCSVRow, hc]]
      rw [ih (c :: cur)]
      simp [List.reverse_cons, List.append_assoc]

theorem splitCSVRow_field_comma (f : String) (rest : List Char) :
    splitCSVRow ((escapeCSV f).data ++ ',' :: rest) [] false
      = f :: splitCSVRow rest [] false := by
  by_cases h : needsQuoting f = true
  · have hdata : (escapeCSV f).data = '"' :: (escQuotes f.data ++ ['"']) := by
      rw [escapeCSV, if_pos h]
    rw [hdata]
    simp only [List.cons_append, List.append_assoc, List.singleton_append, List.nil_append]
    rw [show splitCSVRow ('"' :: (escQuotes f.data ++ '"' :: ',' :: rest)) [] false
        = splitCSVRow (escQuotes f.data ++ '"' :: ',' :: rest) [] true from by
      simp [splitCSVRow]]
    rw [splitCSVRow_quoted_comma]
    simp [strMk_data]
  · have hdata : escapeCSV f = f := by rw [escapeCSV, if_neg h]
    rw [hdata]
    rw [splitCSVRow_unquoted_comma f.data [] rest
      (needsQuoting_false_spec f (Bool.eq_false_iff.mpr h))]
    simp [strMk_data]

theorem splitCSVRow_field_end (f : String) :
    splitCSVRow (escapeCSV f).data [] false = [f] := by
  by_cases h : needsQuoting f = true
  · have hdata : (escapeCSV f).data = '"' :: (escQuotes f.data ++ ['"']) := by
      rw [escapeCSV, if_pos h]
    rw [hdata]
    rw [show splitCSVRow ('"' :: (escQuotes f.data ++ ['"'])) [] false
        = splitCSVRow (escQuotes f.data ++ ['"']) [] true from by simp [splitCSVRow]]
    rw [splitCSVRow_quoted_end]
    simp [strMk_data]
  · have hdata : escapeCSV f = f := by rw [escapeCSV, if_neg h]
    rw [hdata]
    rw [splitCSVRow_unquoted_end f.data []
      (needsQuoting_false_spec f (Bool.eq_false_iff.mpr h))]
    simp [strMk_data]

theorem splitCSVRow_joinComma (fs : List String) (h : fs ≠ []) :
    splitCSVRow (joinComma (fs.map escapeCSV)) [] false = fs := by
  induction fs with
  | nil => exact absurd rfl h
  | cons f fs ih =>
    cases fs with
    | nil =>
      show splitCSVRow (escapeCSV f).data [] false = [f]
      exact splitCSVRow_field_end f
    | cons g gs =>
      show splitCSVRow ((escapeCSV f).data ++ ',' :: joinComma ((g :: gs).map escapeCSV))
          [] false = f :: g :: gs
      rw [splitCSVRow_field_comma]
      rw [ih (by simp)]

/-- C8: the CSV export is exactly the header row
"Type,Category,Line,Element,Description,Additional Info" followed by one
row per DetailedError in order, each row being the six projected fields
escaped by comma/quote/newline-triggered quoting with doubled interior
quotes; splitting any data row on commas outside quotes and undoing the
quoting recovers the six original field values. -/
theorem exportErrorsToCSV_roundtrip (des : List DetailedError) (h : des ≠ []) :
    exportErrorsToCSV des =
      some (String.mk (joinNewline (joinComma csvHeaders :: des.map csvRow))) ∧
    String.mk (joinComma csvHeaders) =
      "Type,Category,Line,Element,Description,Additional Info" ∧
    ∀ e : DetailedError, splitCSVRow (csvRow e) [] false = csvFields e := by
  refine ⟨?_, by decide, ?_⟩
  · unfold exportErrorsToCSV
    rw [if_neg (fun hc => h (List.length_eq_zero.mp hc))]
  · intro e
    show splitCSVRow (joinComma ((csvFields e).map escapeCSV)) [] false = csvFields e
    exact splitCSVRow_joinComma (csvFields e) (by simp [csvFields])

/-- C8 witness: a record whose element contains a comma, quotes and a
newline, and whose additionalInfo contains a comma, round-trips. -/
theorem exportErrorsToCSV_roundtrip_witness :
    splitCSVRow (csvRow
      { type := "Critical", category := "Broken Image", line := some 2,
        element := "a,\"b\"\nc", description := "d", heading := none, count := none,
        altText := some "x,y", href := some "(empty)", linkText := none }) [] false =
      ["Critical", "Broken Image", "2", "a,\"b\"\nc", "d", "Alt: \"x,y\""] ∧
    (exportErrorsToCSV
      [{ type := "Critical", category := "Broken Image", line := some 2,
         element := "a,\"b\"\nc", description := "d", heading := none, count := none,
         altText := some "x,y", href := some "(empty)", linkText := none }]).isSome = true := by
  have h := exportErrorsToCSV_roundtrip
    [{ type := "Critical", category := "Broken Image", line := some 2,
       element := "a,\"b\"\nc", description := "d", heading := none, count := none,
       altText := some "x,y", href := some "(empty)", linkText := none }]
    (by simp)
  refine ⟨(h.2.2 _).trans (by decide), ?_⟩
  rw [h.1]
  rfl

end MarkdownValidation
